import Mathlib

/-!
Verification of the easypy resilience, logging and exceptions modules: a
shallow embedding of the code in `src/easypy` (resilience.py, logging.py,
exceptions.py), with theorems about the retry engine, the backoff
schedules, the solo console-arbitration registry, structured exceptions
and the exception-to-boolean adaptation.
-/

namespace Easypy

/-!
### Python exception classes

The exception classes used by the resilience module, with Python's
subclass relation: `ValueError`, `TypeError`, `NameError` and
`AttributeError` derive from `Exception`; `KeyboardInterrupt` derives
only from `BaseException`.  `fooError` and `barError` stand for
user-defined classes (`barError` subclassing `fooError`), as in
`tests/test_resilience.py`.
-/

inductive ExcClass where
  | baseException
  | exception
  | valueError
  | typeError
  | nameError
  | attributeError
  | keyboardInterrupt
  | fooError
  | barError
deriving DecidableEq

/-- The class and its ancestors, as resolved by Python. -/
def ExcClass.mro : ExcClass → List ExcClass
  | .baseException => [.baseException]
  | .exception => [.exception, .baseException]
  | .valueError => [.valueError, .exception, .baseException]
  | .typeError => [.typeError, .exception, .baseException]
  | .nameError => [.nameError, .exception, .baseException]
  | .attributeError => [.attributeError, .exception, .baseException]
  | .keyboardInterrupt => [.keyboardInterrupt, .baseException]
  | .fooError => [.fooError, .exception, .baseException]
  | .barError => [.barError, .fooError, .exception, .baseException]

/-- `isinstance`-style check: class `c` equals `p` or derives from `p`. -/
def ExcClass.isSubclassOf (c p : ExcClass) : Bool := c.mro.contains p

/-- A Python exception instance: its class, the `_raised_asynchronously`
flag read by `raise_if_async_exception` (resilience.py lines 172-177),
and an identity tag so that distinct instances of the same class can be
told apart. -/
structure Exc where
  cls : ExcClass
  raisedAsynchronously : Bool := false
  tag : Nat := 0
deriving DecidableEq

/-- `except`-clause matching against a tuple of classes: the raised
exception is an instance of one of them. -/
def excMatches (cs : List ExcClass) (e : Exc) : Bool :=
  cs.any fun c => e.cls.isSubclassOf c

/-- `UNACCEPTABLE_EXCEPTIONS` (resilience.py line 18). -/
def UNACCEPTABLE_EXCEPTIONS : List ExcClass :=
  [.nameError, .attributeError, .typeError, .keyboardInterrupt]

/-- The `unacceptable` argument of `retry` and `resilience`: `None`, a
single exception class, or a tuple of classes. -/
inductive UnacceptableArg where
  | noneArg
  | single (c : ExcClass)
  | tuple (cs : List ExcClass)
deriving DecidableEq

/-- The normalization performed at the top of both `retry`
(resilience.py lines 64-69) and `resilience` (lines 142-147): `None`
becomes the empty tuple; a tuple gets `UNACCEPTABLE_EXCEPTIONS`
appended; a single class is wrapped into a tuple and gets them
appended. -/
def normalizeUnacceptable : UnacceptableArg → List ExcClass
  | .noneArg => []
  | .tuple cs => cs ++ UNACCEPTABLE_EXCEPTIONS
  | .single c => c :: UNACCEPTABLE_EXCEPTIONS

/-!
### ExpiringCounter (resilience.py lines 47-58)
-/

/-- `ExpiringCounter`: holds the remaining count `times`. -/
structure ExpiringCounter where
  times : Int
deriving DecidableEq

/-- The `expired` property: it first decrements `times` and then reports
whether it went below zero.  Reading the property mutates the counter,
so the model returns the new counter alongside the answer. -/
def ExpiringCounter.expired (c : ExpiringCounter) : Bool × ExpiringCounter :=
  (decide (c.times - 1 < 0), ⟨c.times - 1⟩)

/-- The `remain` property: the stored count. -/
def ExpiringCounter.remain (c : ExpiringCounter) : Int := c.times

/-- Evaluate the `expired` property `k` times in sequence, collecting the
answers in order together with the final counter state. -/
def expiredRuns (c : ExpiringCounter) : Nat → List Bool × ExpiringCounter
  | 0 => ([], c)
  | k + 1 =>
    let r := c.expired
    let rest := expiredRuns r.2 k
    (r.1 :: rest.1, rest.2)

/-!
### The retry loop (resilience.py lines 61-102)
-/

instance {ε α : Type} [DecidableEq ε] [DecidableEq α] :
    DecidableEq (Except ε α) := fun a b =>
  match a, b with
  | .ok x, .ok y =>
    if h : x = y then isTrue (by rw [h]) else isFalse (by simp [h])
  | .error x, .error y =>
    if h : x = y then isTrue (by rw [h]) else isFalse (by simp [h])
  | .ok _, .error _ => isFalse (by simp)
  | .error _, .ok _ => isFalse (by simp)

/-- The observable outcome of a `retry` call: the value returned or the
exception that propagates, the number of invocations of `func`, and the
number of sleep-and-retry rounds performed. -/
structure RetryResult (α : Type) where
  outcome : Except Exc α
  calls : Nat
  sleeps : Nat
deriving DecidableEq

/-- The `while True` loop of `retry` (resilience.py lines 85-102) for an
integer `times` argument, whose stopper is `ExpiringCounter times`.
`op k` is the outcome of the `k`-th invocation of `func` (counting from
0): `.ok v` if it returns `v`, `.error e` if it raises `e`.  Each
iteration follows the source's classification: the `except unacceptable`
clause re-raises; the `except acceptable` clause applies
`raise_if_async_exception`, then the predicate, then `stopper.expired`,
re-raising whenever one of them fires; an exception matching neither
clause propagates; otherwise the loop sleeps and retries. -/
def retryLoop {α : Type} (op : Nat → Except Exc α)
    (unacceptable acceptable : List ExcClass) (pred : Exc → Bool)
    (stopper : ExpiringCounter) (calls sleeps : Nat) : RetryResult α :=
  match op calls with
  | .ok v => ⟨.ok v, calls + 1, sleeps⟩
  | .error exc =>
    if excMatches unacceptable exc then ⟨.error exc, calls + 1, sleeps⟩
    else if ! excMatches acceptable exc then ⟨.error exc, calls + 1, sleeps⟩
    else if exc.raisedAsynchronously then ⟨.error exc, calls + 1, sleeps⟩
    else if ! pred exc then ⟨.error exc, calls + 1, sleeps⟩
    else if (stopper.expired).1 then ⟨.error exc, calls + 1, sleeps⟩
    else retryLoop op unacceptable acceptable pred (stopper.expired).2
      (calls + 1) (sleeps + 1)
termination_by stopper.times.toNat
decreasing_by
  simp only [ExpiringCounter.expired, decide_eq_true_eq, not_lt] at *
  omega

/-- The default predicate: `retry` replaces a falsy `pred` argument with
`lambda exc: True` (resilience.py lines 82-83). -/
def truePred : Exc → Bool := fun _ => true

/-- `retry(times, func, acceptable=…, unacceptable=…, pred=…)` for an
integer `times`: normalizes `unacceptable`, builds the `ExpiringCounter`
stopper, defaults the predicate, and runs the loop.  The defaults mirror
the source: `unacceptable=()` (the empty tuple) and `pred=None`. -/
def retry {α : Type} (times : Int) (op : Nat → Except Exc α)
    (acceptable : List ExcClass) (unacceptable : UnacceptableArg := .tuple [])
    (pred : Option (Exc → Bool) := none) : RetryResult α :=
  retryLoop op (normalizeUnacceptable unacceptable) acceptable
    (pred.getD truePred) ⟨times⟩ 0 0

/-- An operation that always raises a fresh `ValueError` instance, tagged
by the attempt number. -/
def alwaysValueError : Nat → Except Exc Unit :=
  fun k => .error ⟨.valueError, false, k⟩

/-- An operation that always raises a fresh `TypeError` instance, tagged
by the attempt number. -/
def alwaysTypeError : Nat → Except Exc Unit :=
  fun k => .error ⟨.typeError, false, k⟩

/-!
### Exception classification order (resilience.py lines 85-102, 148-158)
-/

/-- What becomes of a caught exception: it propagates to the caller, or
it is handled (retried by `retry`, swallowed by `resilience`). -/
inductive Decision where
  | propagate
  | handled
deriving DecidableEq

/-- The classification one iteration of `retry` applies to an exception
raised by `func` (resilience.py lines 88-95): the `except unacceptable`
clause re-raises; the `except acceptable` clause applies
`raise_if_async_exception`, then the predicate, then `stopper.expired`;
an exception matching neither clause propagates; the remaining case is
retried.  A falsy `pred` was replaced by `lambda exc: True` beforehand
(lines 82-83), so with `pred=None` nothing caller-configured runs.
Returns the decision together with whether the caller-configured
predicate was evaluated on the exception. -/
def retryClassify (unacceptable : UnacceptableArg) (acceptable : List ExcClass)
    (pred : Option (Exc → Bool)) (stopperExpired : Bool) (exc : Exc) :
    Decision × Bool :=
  if excMatches (normalizeUnacceptable unacceptable) exc then (.propagate, false)
  else if ! excMatches acceptable exc then (.propagate, false)
  else if exc.raisedAsynchronously then (.propagate, false)
  else
    match pred with
    | some p =>
      if ! p exc then (.propagate, true)
      else if stopperExpired then (.propagate, true)
      else (.handled, true)
    | none =>
      if stopperExpired then (.propagate, false)
      else (.handled, false)

/-- The classification `resilience` applies to an exception raised in
its scope (resilience.py lines 148-158): the `except unacceptable`
clause re-raises; the `except acceptable` clause evaluates the predicate
first (`if pred and not pred(exc): raise`) and only then calls
`raise_if_async_exception`; an exception matching neither clause
propagates; the remaining case is swallowed.  Returns the decision
together with whether the configured predicate was evaluated. -/
def resilienceClassify (unacceptable : UnacceptableArg)
    (acceptable : List ExcClass) (pred : Option (Exc → Bool)) (exc : Exc) :
    Decision × Bool :=
  if excMatches (normalizeUnacceptable unacceptable) exc then (.propagate, false)
  else if ! excMatches acceptable exc then (.propagate, false)
  else
    match pred with
    | some p =>
      if ! p exc then (.propagate, true)
      else if exc.raisedAsynchronously then (.propagate, true)
      else (.handled, true)
    | none =>
      if exc.raisedAsynchronously then (.propagate, false)
      else (.handled, false)

/-!
### Backoff schedules (resilience.py lines 21-44)
-/

/-- `ExponentialBackoff.__init__(initial, maximum, base)`: stores `base`,
`initial`, `current = initial` and `maximum` (the source widens
`maximum` to float; here all fields are rationals). -/
structure ExponentialBackoff where
  base : ℚ
  initial : ℚ
  current : ℚ
  maximum : ℚ
deriving DecidableEq

/-- The constructor: `current` starts at `initial`. -/
def ExponentialBackoff.init (initial maximum base : ℚ) : ExponentialBackoff :=
  ⟨base, initial, initial, maximum⟩

/-- The shared mutation of `__call__` (resilience.py line 33):
`self.current = min(self.current * self.base, self.maximum)`. -/
def backoffStep (b : ExponentialBackoff) : ExponentialBackoff :=
  { b with current := min (b.current * b.base) b.maximum }

/-- `ExponentialBackoff.__call__`: mutate `current`, then return
`min(self.get_current(), self.maximum)` where `get_current` returns
`current`.  Yields the returned delay and the updated schedule. -/
def ExponentialBackoff.call (b : ExponentialBackoff) : ℚ × ExponentialBackoff :=
  let b2 := backoffStep b
  (min b2.current b2.maximum, b2)

/-- `RandomExponentialBackoff` overrides `get_current` to return
`random.random() * self.current + self.initial`; the inherited
`__call__` still mutates `current` first and still clamps the returned
value with `min(…, self.maximum)`.  `r` is the uniform draw in `[0,1)`
made by this call. -/
def RandomExponentialBackoff.call (r : ℚ) (b : ExponentialBackoff) :
    ℚ × ExponentialBackoff :=
  let b2 := backoffStep b
  (min (r * b2.current + b2.initial) b2.maximum, b2)

/-- The first `n` delays returned by successive calls of an exponential
backoff schedule. -/
def backoffOutputs (b : ExponentialBackoff) : Nat → List ℚ
  | 0 => []
  | n + 1 =>
    let r := b.call
    r.1 :: backoffOutputs r.2 n

/-!
### Exception-to-boolean adaptation (resilience.py lines 228-251)
-/

/-- `_ExceptionToBooleanDescriptor.__call__`: run the wrapped function
(`outcome` is `none` if it returned, `some exc` if it raised `exc`);
`except self._unacceptable` re-raises, `except UNACCEPTABLE_EXCEPTIONS`
re-raises, `except self._acceptable` returns `False`, an unmatched
exception propagates, and no exception returns `True`. -/
def exceptionToBooleanCall (unacceptable acceptable : List ExcClass)
    (outcome : Option Exc) : Except Exc Bool :=
  match outcome with
  | none => .ok true
  | some exc =>
    if excMatches unacceptable exc then .error exc
    else if excMatches UNACCEPTABLE_EXCEPTIONS exc then .error exc
    else if excMatches acceptable exc then .ok false
    else .error exc

/-!
### Solo console arbitration (logging.py lines 110-160)
-/

/-- The `ThreadControl.SELECTED` ordered dictionary together with the
`IDX_GEN` counter: `(ticket, thread)` pairs in insertion order, each
ticket mapped to the identifier of the thread that acquired solo
mode. -/
structure SoloRegistry where
  selected : List (Nat × Nat)
  idxGen : Nat
deriving DecidableEq

/-- The initial state: no tickets, the index generator at zero. -/
def SoloRegistry.empty : SoloRegistry := ⟨[], 0⟩

/-- Entering `ThreadControl.solo()` from thread `t` (logging.py lines
138-145): allocate `idx = next(cls.IDX_GEN)` and record the current
thread under it; `OrderedDict` insertion appends.  Returns the ticket
and the new state. -/
def SoloRegistry.soloEnter (r : SoloRegistry) (t : Nat) : Nat × SoloRegistry :=
  (r.idxGen, ⟨r.selected ++ [(r.idxGen, t)], r.idxGen + 1⟩)

/-- Leaving the `solo()` scope (line 147): `SELECTED.pop(idx)` removes
that ticket wherever it sits, preserving the order of the others. -/
def SoloRegistry.soloExit (r : SoloRegistry) (ticket : Nat) : SoloRegistry :=
  ⟨r.selected.filter fun p => p.1 != ticket, r.idxGen⟩

/-- The selection step of `ThreadControl.filter` (logging.py lines
150-156), sequentially: `next(reversed(self.SELECTED), None)` takes the
last ticket in insertion order and the selected thread is its owner;
when no ticket remains the selection is `None` ("no one solo") and the
filter falls through to the suppression logic. -/
def SoloRegistry.selectedThread (r : SoloRegistry) : Option Nat :=
  r.selected.getLast?.map (·.2)

/-- The invariant the registry maintains: tickets appear in strictly
increasing order and all sit below the generator value. -/
def SoloRegistry.WF (r : SoloRegistry) : Prop :=
  r.selected.Pairwise (fun p q => p.1 < q.1) ∧ ∀ p ∈ r.selected, p.1 < r.idxGen

/-!
### Structured exceptions (exceptions.py)
-/

/-- A single quote character, as Python repr uses around strings. -/
def squote : String := (Char.ofNat 39).toString

/-- An opening curly brace. -/
def obrace : String := (Char.ofNat 123).toString

/-- A closing curly brace. -/
def cbrace : String := (Char.ofNat 125).toString

/-- A Python value as it appears among exception parameters: strings,
integers, booleans, `None`, and string-keyed dictionaries. -/
inductive PyVal where
  | pstr (s : String)
  | pint (n : Int)
  | pbool (b : Bool)
  | pnone
  | pdict (entries : List (String × PyVal))

mutual

/-- Python `str()` on such a value (`repr` for dictionaries). -/
def PyVal.pyStr : PyVal → String
  | .pstr s => s
  | .pint n => toString n
  | .pbool true => "True"
  | .pbool false => "False"
  | .pnone => "None"
  | .pdict es => obrace ++ pyDictBody es ++ cbrace

/-- The comma-separated body of a dictionary's `repr`. -/
def pyDictBody : List (String × PyVal) → String
  | [] => ""
  | [e] => squote ++ e.1 ++ squote ++ ": " ++ e.2.pyStr
  | e :: rest =>
    squote ++ e.1 ++ squote ++ ": " ++ e.2.pyStr ++ ", " ++ pyDictBody rest

end

/-- Python `repr()`: strings gain quotes, the rest as `str()` (string
escaping inside `repr` is not modeled; no claim renders a string whose
repr needs escapes). -/
def PyVal.pyRepr : PyVal → String
  | .pstr s => squote ++ s ++ squote
  | v => v.pyStr

/-- Python truthiness of such a value. -/
def PyVal.truthy : PyVal → Bool
  | .pstr s => ! s.data.isEmpty
  | .pint n => n != 0
  | .pbool b => b
  | .pnone => false
  | .pdict es => ! es.isEmpty

/-- The entries of a dictionary value (`None` and the rest have none). -/
def PyVal.asDict : PyVal → List (String × PyVal)
  | .pdict es => es
  | _ => []

/-- Split a character list at every newline (the pieces do not keep the
newline; an empty input gives one empty piece, as `str.split` does). -/
def splitNl : List Char → List (List Char)
  | [] => [[]]
  | c :: rest =>
    let r := splitNl rest
    if c = '\n' then [] :: r
    else (c :: r.headD []) :: r.tail

/-- Split a string at every newline, keeping an empty trailing piece. -/
def splitAllNl (s : String) : List String := (splitNl s.data).map String.mk

/-- Join pieces back with newlines. -/
def joinNl : List String → String
  | [] => ""
  | [s] => s
  | s :: rest => s ++ "\n" ++ joinNl rest

/-- A line `str.strip()` would empty: whitespace only. -/
def isBlank (s : String) : Bool := s.data.all fun c => c.isWhitespace

/-- Does the string start with the given character. -/
def headIs (s : String) (c : Char) : Bool :=
  match s.data with
  | [] => false
  | c2 :: _ => c2 = c

/-- Drop the first `n` characters of a string. -/
def strDrop (s : String) (n : Nat) : String := String.mk (s.data.drop n)

/-- Python `str.splitlines()` for newline-separated text: like splitting
on newlines, but an empty trailing piece is not produced. -/
def pySplitlines (s : String) : List String :=
  let parts := splitAllNl s
  if parts.getLast? = some "" then parts.dropLast else parts

/-- Python `textwrap.indent(s, pad)`: each line that has non-whitespace
content gains the pad. -/
def pyIndent (pad s : String) : String :=
  joinNl ((splitAllNl s).map fun line =>
    if isBlank line then line else pad ++ line)

/-- Lexicographic comparison of character lists by codepoint: Python's
string order for the ASCII keys used here. -/
def charListLe : List Char → List Char → Bool
  | [], _ => true
  | _ :: _, [] => false
  | a :: as, b :: bs =>
    if a.toNat < b.toNat then true
    else if b.toNat < a.toNat then false
    else charListLe as bs

/-- `sorted(d)` on a string-keyed dictionary: the entries ordered by
key. -/
def pySorted (d : List (String × PyVal)) : List (String × PyVal) :=
  List.insertionSort (fun a b => charListLe a.1.data b.1.data = true) d

/-- Dictionary lookup in a kwargs association list (keys unique). -/
def lookupStr (d : List (String × PyVal)) (k : String) : Option PyVal :=
  (d.find? fun p => p.1 == k).map (·.2)

/-- `dict.pop(k, None)`: the value, if present, and the rest of the
dictionary. -/
def popKey (d : List (String × PyVal)) (k : String) :
    Option PyVal × List (String × PyVal) :=
  (lookupStr d k, d.filter fun p => p.1 != k)

/-- One entry yielded by `make_block` (exceptions.py lines 155-169): the
value is kept as-is when a string and `repr`-ed otherwise (the
`datetime` branch is dead here: no claim stores a datetime parameter);
a `~`-prefixed key is stripped and rendered dark; continuation lines of
a multi-line value are padded to sit under the first. -/
def blockEntry (k : String) (v : PyVal) : String :=
  let v2 := match v with
    | .pstr s => s
    | other => other.pyRepr
  let dark := headIs k '~'
  let k2 := if dark then strDrop k 1 else k
  let head := k2 ++ " = "
  let block := pyIndent (String.mk (List.replicate head.data.length ' ')) v2
  let block2 := head ++ strDrop block head.data.length
  let block3 :=
    if dark then "DARK_GRAY@" ++ obrace ++ block2 ++ cbrace ++ "@" else block2
  block3 ++ "\n"

/-- `make_block(d, skip)` (exceptions.py lines 149-169): iterate the
keys in sorted order, skipping underscore-prefixed keys and keys in
`skip`, yielding one rendered entry per remaining key. -/
def make_block (d : List (String × PyVal)) (skip : List String) : List String :=
  (pySorted d).filterMap fun e =>
    if headIs e.1 '_' then none
    else if e.1 ∈ skip then none
    else some (blockEntry e.1 e.2)

/-- A piece of a Python format string: literal text or a named `{name}`
replacement field (positional fields are not modeled; every template in
this module's claims uses named fields). -/
inductive Tmpl where
  | lit (s : String)
  | field (name : String)
deriving DecidableEq

/-- The raw text of a template, as the unformatted string stores it. -/
def tmplRaw (t : List Tmpl) : String :=
  String.join (t.map fun piece =>
    match piece with
    | .lit s => s
    | .field n => obrace ++ n ++ cbrace)

/-- `template.format(**kwargs)`: each field is replaced by `str` of the
looked-up value; a field whose name is missing from the kwargs raises
`KeyError`, modeled as `none`. -/
def tmplFormat : List Tmpl → List (String × PyVal) → Option String
  | [], _ => some ""
  | .lit s :: rest, kw => (tmplFormat rest kw).map (s ++ ·)
  | .field n :: rest, kw =>
    match lookupStr kw n with
    | none => none
    | some v => (tmplFormat rest kw).map (v.pyStr ++ ·)

/-- The state of a constructed `PException`. -/
structure PExc where
  message : String
  context : PyVal
  traceback : Option String
  timestamp : PyVal
  params : List (String × PyVal)

/-- `PException.__init__(message, *args, **params)` (exceptions.py lines
33-47).  `message` is the template, `argsCount` how many positional
arguments were passed (only their presence matters), `kwargs` the
keyword parameters, `now` what `time()` would return, `fmtExc` what
`format_exc()` would return and `classTip` the class-level `tip`
attribute.  The template is formatted only when at least one positional
or keyword argument was supplied (`if args or params`); a missing
referenced key is a `KeyError`, modeled as `none`.  `context`,
`traceback` (replaced by `format_exc()` when it `is True`) and
`timestamp` are then popped from the params and a `tip` entry is
defaulted from the class when absent. -/
def pexceptionInit (message : List Tmpl) (argsCount : Nat)
    (kwargs : List (String × PyVal)) (now : PyVal) (fmtExc : String)
    (classTip : PyVal := .pnone) : Option PExc :=
  let fmt : Option String :=
    if argsCount == 0 && kwargs.isEmpty then some (tmplRaw message)
    else tmplFormat message kwargs
  match fmt with
  | none => none
  | some msg =>
    let r1 := popKey kwargs "context"
    let r2 := popKey r1.2 "traceback"
    let tb : Option String :=
      match r2.1 with
      | some (.pbool true) => some fmtExc
      | some (.pstr s) => some s
      | _ => none
    let r3 := popKey r2.2 "timestamp"
    let ts := r3.1.getD now
    let kw4 :=
      if (lookupStr r3.2 "tip").isNone then r3.2 ++ [("tip", classTip)]
      else r3.2
    some ⟨msg, r1.1.getD .pnone, tb, ts, kw4⟩

/-- `TException.__init__(*args, **params)` (exceptions.py lines
141-142): delegates to `PException.__init__` with the class-level
`template` as the message. -/
def texceptionInit (template : List Tmpl) (argsCount : Nat)
    (kwargs : List (String × PyVal)) (now : PyVal) (fmtExc : String)
    (classTip : PyVal := .pnone) : Option PExc :=
  pexceptionInit template argsCount kwargs now fmtExc classTip

/-- `PException.render` (exceptions.py lines 64-96) with `color=True`
(the color markers stay as the source writes them; `color=False` only
hands the text to the out-of-scope `easypy.colors` stripper).  `iso`
stands in for `datetime.fromtimestamp(…).isoformat()` applied to the
stored timestamp.  Sections in source order: the message lines, the
sorted parameter block (with `tip` popped first and appended after when
truthy; re-formatting of the tip text with the params is not modeled —
every claim here has a `None` tip), the timestamp, the context block
(whose `indentation` key is skipped), and the dark-rendered trace
lines. -/
def PExc.render (e : PExc) (params context traceback timestamp : Bool)
    (iso : PyVal → String) : String :=
  let text := String.join ((pySplitlines e.message).map fun line =>
    "WHITE<<" ++ line ++ ">>\n")
  let text :=
    if params && ! e.params.isEmpty then
      let tip := (lookupStr e.params "tip").getD .pnone
      let rest := (popKey e.params "tip").2
      let text := text ++ pyIndent "    " (String.join (make_block rest []))
      if tip.truthy then
        let tipLines := pySplitlines tip.pyStr
        let text := text ++ pyIndent "    "
          ("GREEN(BLUE)@" ++ obrace ++ "tip = " ++ tipLines.headD "" ++ cbrace
            ++ "@\n")
        (tipLines.drop 1).foldl
          (fun acc _ => acc ++ pyIndent "    "
            ("GREEN(BLUE)@" ++ obrace ++ "      " ++ tipLines.headD "" ++ cbrace
              ++ "@\n"))
          text
      else text
    else text
  let text :=
    if timestamp && e.timestamp.truthy then
      text ++ pyIndent "    "
        ("MAGENTA<<timestamp = " ++ iso e.timestamp ++ ">>\n")
    else text
  let text :=
    if context && e.context.truthy then
      text ++ "Context:\n"
        ++ pyIndent "    "
          (String.join (make_block e.context.asDict ["indentation"]))
    else text
  let text :=
    if traceback && ! (e.traceback.getD "").data.isEmpty then
      text ++ joinNl
        ((pySplitlines (e.traceback.getD "")).map fun line =>
          "DARK_GRAY@" ++ obrace ++ line ++ cbrace ++ "@")
    else text
  text

/-- The template of the `NotEnoughPeanuts` example (exceptions.py lines
126-127). -/
def peanutsTemplate : List Tmpl :=
  [.lit ("You can" ++ squote ++ "t have "), .field "wanted",
   .lit " peanuts, there are only ", .field "available", .lit " left"]

/-- The keyword parameters of the example:
`wanted=10, available=8, day="Thursday"`. -/
def peanutsKwargs : List (String × PyVal) :=
  [("wanted", .pint 10), ("available", .pint 8), ("day", .pstr "Thursday")]

/-- A one-piece template whose construction exercises every render
section. -/
def boomTemplate : List Tmpl := [.lit "boom"]

/-- Parameters exercising every render section: an underscore-prefixed
param, a `context` dictionary carrying an `indentation` entry, and
`traceback=True`. -/
def boomKwargs : List (String × PyVal) :=
  [("wanted", .pint 1), ("_hidden", .pint 5),
   ("context", .pdict [("indentation", .pint 2), ("op", .pstr "read")]),
   ("traceback", .pbool true)]

/-- Every class is an instance of itself. -/
theorem isSubclassOf_refl (c : ExcClass) : c.isSubclassOf c = true := by
  cases c <;> rfl

/-- An exception whose class is listed in the tuple matches the clause. -/
theorem excMatches_of_mem {cs : List ExcClass} {e : Exc} (h : e.cls ∈ cs) :
    excMatches cs e = true := by
  simp only [excMatches, List.any_eq_true]
  exact ⟨e.cls, h, isSubclassOf_refl e.cls⟩

/-- The counter state after `k` evaluations of `expired`: the stored
count has gone down by `k`. -/
theorem expiredRuns_counter (t : Int) (k : Nat) :
    (expiredRuns ⟨t⟩ k).2 = ⟨t - k⟩ := by
  induction k generalizing t with
  | zero => simp [expiredRuns]
  | succ k ih =>
    simp only [expiredRuns, ExpiringCounter.expired, ih]
    congr 1
    push_cast
    ring

/-- Unfolding one evaluation step of `expiredRuns`. -/
theorem expiredRuns_succ (c : ExpiringCounter) (k : Nat) :
    expiredRuns c (k + 1)
      = ((c.expired).1 :: (expiredRuns (c.expired).2 k).1,
         (expiredRuns (c.expired).2 k).2) := rfl

/-- While the budget suffices, every evaluation of `expired` answers
`false`. -/
theorem expiredRuns_all_false (k : Nat) (t : Int) (h : (k : Int) ≤ t) :
    (expiredRuns ⟨t⟩ k).1 = List.replicate k false := by
  induction k generalizing t with
  | zero => simp [expiredRuns]
  | succ k ih =>
    have h1 : decide (t - 1 < 0) = false := by
      simp only [decide_eq_false_iff_not, not_lt]
      push_cast at h
      omega
    have h2 : (k : Int) ≤ t - 1 := by push_cast at h ⊢; omega
    rw [expiredRuns_succ]
    simp only [ExpiringCounter.expired]
    rw [h1, ih _ h2, List.replicate_succ]

/-- Evaluating `expired` one more time than the initial count answers
`false` exactly `k` times and then `true` once. -/
theorem expiredRuns_last_true (k : Nat) (t : Int) (h : t = k) :
    (expiredRuns ⟨t⟩ (k + 1)).1 = List.replicate k false ++ [true] := by
  induction k generalizing t with
  | zero => simp [expiredRuns, ExpiringCounter.expired, h]
  | succ k ih =>
    have h1 : decide (t - 1 < 0) = false := by
      simp only [decide_eq_false_iff_not, not_lt]
      push_cast at h
      omega
    have h2 : t - 1 = (k : Int) := by push_cast at h ⊢; omega
    rw [expiredRuns_succ]
    simp only [ExpiringCounter.expired]
    rw [h1, ih _ h2, List.replicate_succ]
    rfl

/-!
### Claim theorems: the retry engine
-/

/-- C1: `retry` with `times=3`, an operation that always raises a
`ValueError`, and `acceptable=ValueError`: the operation is invoked
until the stopper reports expired, inclusive of the attempt that
triggers expiry — 4 calls in total, exactly 3 failed attempts are
followed by a sleep-and-retry, and the `ValueError` instance raised by
the final attempt (number 3, counting from 0) propagates unchanged. -/
theorem retry_times3_always_valueError :
    retry 3 alwaysValueError [.valueError]
      = ⟨.error ⟨.valueError, false, 3⟩, 4, 3⟩ := by
  simp [retry, retryLoop, alwaysValueError, excMatches, ExcClass.isSubclassOf,
    ExcClass.mro, UNACCEPTABLE_EXCEPTIONS, normalizeUnacceptable, truePred,
    ExpiringCounter.expired]

/-- C2 counterexample: with `unacceptable=None`, `retry` replaces the
unacceptable set by the empty tuple instead of extending it with
`UNACCEPTABLE_EXCEPTIONS` (resilience.py lines 64-65), so a `TypeError`
raised under `acceptable=Exception` is slept on and retried — here 2
invocations and 1 sleep with `times=1` — rather than re-raised
immediately on the first attempt with zero sleeps. -/
theorem retry_none_unacceptable_still_retries :
    retry 1 alwaysTypeError [.exception] .noneArg
      = ⟨.error ⟨.typeError, false, 1⟩, 2, 1⟩ := by
  simp [retry, retryLoop, alwaysTypeError, excMatches, ExcClass.isSubclassOf,
    ExcClass.mro, UNACCEPTABLE_EXCEPTIONS, normalizeUnacceptable, truePred,
    ExpiringCounter.expired]

/-- C2 amended: whenever the `unacceptable` argument is a tuple or a
single exception class (any value except `None`), the normalized
unacceptable set includes the built-in programmer-error kinds, so an
operation raising one of them (NameError, AttributeError, TypeError,
KeyboardInterrupt) is re-raised immediately on the first attempt, with
zero sleeps and zero further invocations, for every `acceptable` set,
predicate and budget. -/
theorem retry_programmer_errors_immediate {α : Type} (times : Int)
    (op : Nat → Except Exc α) (acceptable : List ExcClass)
    (u : UnacceptableArg) (pred : Option (Exc → Bool)) (exc : Exc)
    (hu : u ≠ .noneArg) (hc : exc.cls ∈ UNACCEPTABLE_EXCEPTIONS)
    (hop : op 0 = .error exc) :
    retry times op acceptable u pred = ⟨.error exc, 1, 0⟩ := by
  have hmem : exc.cls ∈ normalizeUnacceptable u := by
    cases u with
    | noneArg => exact absurd rfl hu
    | single c => exact List.mem_cons_of_mem _ hc
    | tuple cs => exact List.mem_append_right _ hc
  have hmatch := excMatches_of_mem hmem
  unfold retry
  rw [retryLoop, hop]
  simp [hmatch]

/-- Witness for the amended C2 at a concrete input: a `TypeError` with
`unacceptable=FooError` and `acceptable=Exception` propagates from the
first call with no sleeps. -/
theorem retry_programmer_errors_immediate_witness :
    retry 5 alwaysTypeError [.exception] (.single .fooError) none
      = ⟨.error ⟨.typeError, false, 0⟩, 1, 0⟩ :=
  retry_programmer_errors_immediate 5 alwaysTypeError [.exception]
    (.single .fooError) none ⟨.typeError, false, 0⟩
    (by decide) (by decide) rfl

/-- C3 counterexample: on an async-flagged `ValueError` caught with
`acceptable=Exception` and a configured predicate, `resilience`
evaluates the predicate (its `if pred and not pred(exc)` test comes
before `raise_if_async_exception`, resilience.py lines 152-155), while
`retry` re-raises before consulting it — so the two do not share the
claimed unacceptable → async-flagged → predicate order, and the
predicate is not never-evaluated on async-flagged exceptions. -/
theorem resilience_evaluates_pred_on_async :
    (resilienceClassify (.tuple []) [.exception] (some truePred)
        ⟨.valueError, true, 0⟩).2 = true ∧
    (retryClassify (.tuple []) [.exception] (some truePred) false
        ⟨.valueError, true, 0⟩).2 = false := by
  decide

/-- C3 amended: `retry` classifies unacceptable → async-flagged →
predicate-rejected → exhausted-budget while `resilience` classifies
unacceptable → predicate-rejected → async-flagged, each case
short-circuiting to propagation; an async-flagged exception always
propagates in both, but `resilience` evaluates a configured predicate on
any async-flagged exception reaching its acceptable clause, whereas
`retry` never evaluates the predicate on an async-flagged exception. -/
theorem retry_resilience_async_order (u : UnacceptableArg)
    (acceptable : List ExcClass) (pred : Option (Exc → Bool))
    (stopperExpired : Bool) (exc : Exc)
    (hasync : exc.raisedAsynchronously = true) :
    retryClassify u acceptable pred stopperExpired exc
      = (.propagate, false) ∧
    (resilienceClassify u acceptable pred exc).1 = .propagate ∧
    (excMatches (normalizeUnacceptable u) exc = false →
      excMatches acceptable exc = true →
      (resilienceClassify u acceptable pred exc).2 = pred.isSome) := by
  refine ⟨?_, ?_, ?_⟩
  · unfold retryClassify
    rcases pred with _ | p <;> split_ifs <;> simp_all
  · unfold resilienceClassify
    rcases pred with _ | p <;> split_ifs <;> simp_all
  · intro h1 h2
    rcases pred with _ | p
    · simp [resilienceClassify, h1, h2, hasync]
    · by_cases hp : p exc <;>
        simp [resilienceClassify, h1, h2, hasync, hp]

/-- Witness for the amended C3 at a concrete input. -/
theorem retry_resilience_async_order_witness :
    retryClassify (.tuple []) [.exception] (some truePred) false
        ⟨.valueError, true, 7⟩
      = (.propagate, false) ∧
    (resilienceClassify (.tuple []) [.exception] (some truePred)
        ⟨.valueError, true, 7⟩).1 = .propagate ∧
    (excMatches (normalizeUnacceptable (.tuple [])) ⟨.valueError, true, 7⟩
        = false →
      excMatches [.exception] ⟨.valueError, true, 7⟩ = true →
      (resilienceClassify (.tuple []) [.exception] (some truePred)
          ⟨.valueError, true, 7⟩).2 = (some truePred).isSome) :=
  retry_resilience_async_order (.tuple []) [.exception] (some truePred)
    false ⟨.valueError, true, 7⟩ rfl

/-- C10: querying the retry stop condition is itself mutating — each
evaluation of `expired` first decrements the stored count and then
reports whether it went below zero; starting from integer `n ≥ 0`, the
answers are `false` for the first `n` evaluations and `true` on the
`(n+1)`-th, `remain` after `k` evaluations equals `n - k`, and it
reaches `-1` when expiry is reported. -/
theorem expiringCounter_budget (n : Int) (h : 0 ≤ n) :
    (∀ c : ExpiringCounter,
        c.expired = (decide (c.times - 1 < 0), ⟨c.times - 1⟩)) ∧
    (∀ k : Nat, ((expiredRuns ⟨n⟩ k).2).remain = n - k) ∧
    (expiredRuns ⟨n⟩ n.toNat).1 = List.replicate n.toNat false ∧
    (expiredRuns ⟨n⟩ (n.toNat + 1)).1
      = List.replicate n.toNat false ++ [true] ∧
    ((expiredRuns ⟨n⟩ (n.toNat + 1)).2).remain = -1 := by
  refine ⟨fun c => rfl, fun k => ?_, ?_, ?_, ?_⟩
  · rw [expiredRuns_counter]
    rfl
  · exact expiredRuns_all_false n.toNat n (by omega)
  · exact expiredRuns_last_true n.toNat n (by omega)
  · rw [expiredRuns_counter]
    simp only [ExpiringCounter.remain]
    push_cast
    omega

/-- Witness for C10 at `n = 3`: two units of budget would indeed be
consumed by two evaluations, and four evaluations produce three
`false`s then `true`, leaving `remain = -1`. -/
theorem expiringCounter_budget_witness :
    (expiredRuns ⟨3⟩ 4).1 = [false, false, false, true] ∧
    ((expiredRuns ⟨3⟩ 4).2).remain = -1 := by
  have h := expiringCounter_budget 3 (by norm_num)
  exact ⟨h.2.2.2.1, h.2.2.2.2⟩

/-!
### Claim theorems: backoff schedules
-/

/-- C4: with `initial=1, base=2, maximum=30` the successive returned
delays are exactly `2, 4, 8, 16, 30, 30, 30`; in general each call sets
`current = min(current * base, maximum)`, the returned delay never
exceeds `maximum`, and for `base ≥ 1` (from a nonnegative `current` and
`maximum`, as every delay configuration is) the returned values are
monotonically non-decreasing from call to call. -/
theorem exponentialBackoff_sequence :
    backoffOutputs (ExponentialBackoff.init 1 30 2) 7
      = [2, 4, 8, 16, 30, 30, 30] ∧
    (∀ b : ExponentialBackoff,
      (b.call).2 = { b with current := min (b.current * b.base) b.maximum } ∧
      (b.call).1 ≤ b.maximum) ∧
    (∀ b : ExponentialBackoff, 1 ≤ b.base → 0 ≤ b.current → 0 ≤ b.maximum →
      (b.call).1 ≤ ((b.call).2.call).1) := by
  refine ⟨?_, fun b => ⟨rfl, min_le_right _ _⟩, fun b hb hc hm => ?_⟩
  · simp [backoffOutputs, ExponentialBackoff.call, backoffStep,
      ExponentialBackoff.init, min_def]
    norm_num
  · simp only [ExponentialBackoff.call, backoffStep]
    have hle : min (b.current * b.base) b.maximum ≤ b.maximum :=
      min_le_right _ _
    have h0 : (0 : ℚ) ≤ min (b.current * b.base) b.maximum :=
      le_min (mul_nonneg hc (le_trans zero_le_one hb)) hm
    rw [min_eq_left hle]
    refine le_min (le_min ?_ hle) hle
    calc min (b.current * b.base) b.maximum
        = min (b.current * b.base) b.maximum * 1 := by ring
      _ ≤ min (b.current * b.base) b.maximum * b.base :=
          mul_le_mul_of_nonneg_left hb h0

/-- Witness for C4 at the concrete schedule `initial=1, maximum=30,
base=2`: the first returned delay does not exceed the second. -/
theorem exponentialBackoff_sequence_witness :
    (ExponentialBackoff.init 1 30 2).call.1
      ≤ ((ExponentialBackoff.init 1 30 2).call.2.call).1 :=
  exponentialBackoff_sequence.2.2 (ExponentialBackoff.init 1 30 2)
    (by norm_num [ExponentialBackoff.init])
    (by norm_num [ExponentialBackoff.init])
    (by norm_num [ExponentialBackoff.init])

/-- C5 counterexample: the inherited `__call__` clamps the jittered
value with `min(…, maximum)` (resilience.py line 34), so the returned
delay is not always `r * current + initial`: with `initial=1, maximum=2,
base=2` and draw `r = 3/4`, the updated ceiling is 2,
`r * current + initial = 5/2`, yet the call returns 2. -/
theorem randomBackoff_clamped :
    (RandomExponentialBackoff.call (3/4) (ExponentialBackoff.init 1 2 2)).1
      = 2 ∧
    (3 / 4 : ℚ) * ((RandomExponentialBackoff.call (3/4)
        (ExponentialBackoff.init 1 2 2)).2.current)
        + (ExponentialBackoff.init 1 2 2).initial = 5 / 2 ∧
    (5 / 2 : ℚ) ≠ 2 := by
  norm_num [RandomExponentialBackoff.call, backoffStep,
    ExponentialBackoff.init, min_def]

/-- C5 amended: a `RandomExponentialBackoff` call updates the internal
ceiling exactly as the plain exponential schedule does, and returns the
jittered value `r * current + initial` (for the updated ceiling
`current`) clamped by `min(…, maximum)` — so the returned delay is
decoupled from the tracked ceiling except for that final clamp, and
never exceeds `maximum`. -/
theorem randomBackoff_jitter (r : ℚ) (b : ExponentialBackoff) :
    (RandomExponentialBackoff.call r b).2 = (ExponentialBackoff.call b).2 ∧
    (RandomExponentialBackoff.call r b).2.current
      = min (b.current * b.base) b.maximum ∧
    (RandomExponentialBackoff.call r b).1
      = min (r * (backoffStep b).current + b.initial) b.maximum ∧
    (RandomExponentialBackoff.call r b).1 ≤ b.maximum :=
  ⟨rfl, rfl, rfl, min_le_right _ _⟩

/-!
### Claim theorems: solo console arbitration
-/

/-- The last element of a list is a member. -/
theorem getLast?_mem_self :
    ∀ (l : List (Nat × Nat)) (q : Nat × Nat), l.getLast? = some q → q ∈ l := by
  intro l
  induction l with
  | nil => intro q hq; simp at hq
  | cons a l ih =>
    intro q hq
    cases l with
    | nil =>
      simp at hq
      simp [hq]
    | cons b m =>
      rw [List.getLast?_cons_cons] at hq
      exact List.mem_cons_of_mem _ (ih q hq)

/-- In a strictly increasing list, the last element has the greatest
key. -/
theorem pairwise_getLast_max :
    ∀ (l : List (Nat × Nat)), (l.Pairwise fun p q => p.1 < q.1) →
      ∀ q, l.getLast? = some q → ∀ p ∈ l, p.1 ≤ q.1 := by
  intro l
  induction l with
  | nil => intro _ q hq; simp at hq
  | cons a l ih =>
    intro hs q hq p hp
    rcases List.pairwise_cons.mp hs with ⟨ha, hl⟩
    cases l with
    | nil =>
      simp at hq
      rcases List.mem_singleton.mp hp with rfl
      simp [hq]
    | cons b m =>
      rw [List.getLast?_cons_cons] at hq
      rcases List.mem_cons.mp hp with rfl | hp2
      · exact le_of_lt (ha q (getLast?_mem_self _ q hq))
      · exact ih hl q hq p hp2

/-- C6: in the solo registry the selected thread is always the owner of
the highest still-present ticket.  Concretely, for tickets 0, 1, 2
acquired by threads 10, 20, 30 in that order, removing ticket 1 leaves
thread 30 selected, removing ticket 2 then leaves thread 10 selected,
and removing ticket 0 leaves no one solo.  In general the empty state is
well-formed, `solo` entry and exit preserve well-formedness, no
selection exists exactly when no ticket remains, and the selected thread
owns a ticket no other present ticket exceeds. -/
theorem soloRegistry_highest_ticket :
    ((SoloRegistry.empty.soloEnter 10).1 = 0 ∧
      ((SoloRegistry.empty.soloEnter 10).2.soloEnter 20).1 = 1 ∧
      (((SoloRegistry.empty.soloEnter 10).2.soloEnter 20).2.soloEnter 30).1
        = 2 ∧
      (((((SoloRegistry.empty.soloEnter 10).2.soloEnter 20).2.soloEnter
          30).2).soloExit 1).selectedThread = some 30 ∧
      ((((((SoloRegistry.empty.soloEnter 10).2.soloEnter 20).2.soloEnter
          30).2).soloExit 1).soloExit 2).selectedThread = some 10 ∧
      (((((((SoloRegistry.empty.soloEnter 10).2.soloEnter 20).2.soloEnter
          30).2).soloExit 1).soloExit 2).soloExit 0).selectedThread
        = none) ∧
    SoloRegistry.empty.WF ∧
    (∀ (r : SoloRegistry) (t : Nat), r.WF → ((r.soloEnter t).2).WF) ∧
    (∀ (r : SoloRegistry) (k : Nat), r.WF → (r.soloExit k).WF) ∧
    (∀ r : SoloRegistry, r.WF →
      (r.selectedThread = none ↔ r.selected = []) ∧
      ∀ q, r.selected.getLast? = some q →
        r.selectedThread = some q.2 ∧ ∀ p ∈ r.selected, p.1 ≤ q.1) := by
  refine ⟨by decide, ⟨List.Pairwise.nil, by simp [SoloRegistry.empty]⟩,
    ?_, ?_, ?_⟩
  · rintro r t ⟨hp, hb⟩
    constructor
    · simp only [SoloRegistry.soloEnter]
      refine List.pairwise_append.mpr ⟨hp, List.pairwise_singleton _ _, ?_⟩
      intro p hpm q hq
      rcases List.mem_singleton.mp hq with rfl
      exact hb p hpm
    · intro p hp2
      simp only [SoloRegistry.soloEnter] at hp2
      rcases List.mem_append.mp hp2 with h | h
      · exact Nat.lt_succ_of_lt (hb p h)
      · rcases List.mem_singleton.mp h with rfl
        exact Nat.lt_succ_self _
  · rintro r k ⟨hp, hb⟩
    exact ⟨hp.filter _, fun p hp2 => hb p (List.mem_of_mem_filter hp2)⟩
  · rintro r ⟨hp, _⟩
    refine ⟨?_, fun q hq => ⟨?_, pairwise_getLast_max _ hp q hq⟩⟩
    · simp [SoloRegistry.selectedThread, Option.map_eq_none',
        List.getLast?_eq_none_iff]
    · simp [SoloRegistry.selectedThread, hq]

/-- Witness for C6 at a concrete well-formed registry. -/
theorem soloRegistry_highest_ticket_witness :
    ((SoloRegistry.mk [(0, 10), (2, 30)] 3).selectedThread = none ↔
      (SoloRegistry.mk [(0, 10), (2, 30)] 3).selected = []) ∧
    ∀ q, (SoloRegistry.mk [(0, 10), (2, 30)] 3).selected.getLast? = some q →
      (SoloRegistry.mk [(0, 10), (2, 30)] 3).selectedThread = some q.2 ∧
      ∀ p ∈ (SoloRegistry.mk [(0, 10), (2, 30)] 3).selected, p.1 ≤ q.1 :=
  soloRegistry_highest_ticket.2.2.2.2 (SoloRegistry.mk [(0, 10), (2, 30)] 3)
    (by constructor <;> simp)

/-!
### Claim theorems: exception-to-boolean adaptation
-/

/-- Matching a concatenated tuple matches either part. -/
theorem excMatches_append (a b : List ExcClass) (e : Exc) :
    excMatches (a ++ b) e = (excMatches a e || excMatches b e) := by
  simp [excMatches, List.any_append]

/-- C8: the exception-to-boolean wrapper returns `True` when the
underlying call completes, `False` when the raised exception matches the
acceptable kinds (and neither the caller-specified nor the fixed
unacceptable set), and re-raises the exception unchanged whenever it
matches the caller-specified or the fixed always-unacceptable set —
unacceptable takes precedence over acceptable when both match, as for a
`BarError` (subclass of the acceptable `FooError`) listed unacceptable,
which propagates instead of yielding `False`. -/
theorem exceptionToBoolean_spec (unacc acc : List ExcClass) (exc : Exc) :
    exceptionToBooleanCall unacc acc none = .ok true ∧
    (excMatches (unacc ++ UNACCEPTABLE_EXCEPTIONS) exc = true →
      exceptionToBooleanCall unacc acc (some exc) = .error exc) ∧
    (excMatches (unacc ++ UNACCEPTABLE_EXCEPTIONS) exc = false →
      excMatches acc exc = true →
      exceptionToBooleanCall unacc acc (some exc) = .ok false) ∧
    exceptionToBooleanCall [.barError] [.fooError] (some ⟨.barError, false, 0⟩)
      = .error ⟨.barError, false, 0⟩ := by
  refine ⟨rfl, ?_, ?_, by decide⟩
  · intro h
    rw [excMatches_append] at h
    unfold exceptionToBooleanCall
    cases h1 : excMatches unacc exc
    · simp only [h1, Bool.false_or] at h
      simp [h1, h]
    · simp [h1]
  · intro h1 h2
    rw [excMatches_append, Bool.or_eq_false_iff] at h1
    unfold exceptionToBooleanCall
    simp [h1.1, h1.2, h2]

/-- Witness for C8 at a concrete input: a raised `FooError` with
`acceptable=FooError` and `unacceptable=BarError` yields `False`. -/
theorem exceptionToBoolean_spec_witness :
    exceptionToBooleanCall [.barError] [.fooError]
        (some ⟨.fooError, false, 1⟩) = .ok false :=
  (exceptionToBoolean_spec [.barError] [.fooError] ⟨.fooError, false, 1⟩).2.2.1
    (by decide) (by decide)

/-!
### Claim theorems: structured exceptions
-/

/-- `charListLe` is total. -/
theorem charListLe_total :
    ∀ as bs : List Char, charListLe as bs = true ∨ charListLe bs as = true := by
  intro as
  induction as with
  | nil => intro bs; left; rfl
  | cons a as2 ih =>
    intro bs
    cases bs with
    | nil => right; rfl
    | cons b bs2 =>
      simp only [charListLe]
      rcases Nat.lt_trichotomy a.toNat b.toNat with h | h | h
      · left; simp [h]
      · have h2 : ¬ a.toNat < b.toNat := by omega
        have h3 : ¬ b.toNat < a.toNat := by omega
        rcases ih bs2 with h4 | h4
        · left; simp [h2, h3, h4]
        · right; simp [h2, h3, h4]
      · right; simp [h, Nat.lt_asymm h]

/-- `charListLe` is transitive. -/
theorem charListLe_trans :
    ∀ as bs cs : List Char, charListLe as bs = true →
      charListLe bs cs = true → charListLe as cs = true := by
  intro as
  induction as with
  | nil => intro bs cs _ _; rfl
  | cons a as2 ih =>
    intro bs cs h1 h2
    cases bs with
    | nil => simp [charListLe] at h1
    | cons b bs2 =>
      cases cs with
      | nil => simp [charListLe] at h2
      | cons c cs2 =>
        simp only [charListLe] at h1 h2 ⊢
        split_ifs at h1 h2 ⊢ <;>
          first
            | rfl
            | omega
            | exact ih bs2 cs2 h1 h2

/-- C7: rendering a structured exception is deterministic and ordered:
the message, then every param whose key neither starts with an
underscore nor is skipped, sorted by key, then the timestamp, then the
context, then the trace.  The peanuts `TException` renders its formatted
message followed by `available = 8`, `day = Thursday`, `wanted = 10` in
that sorted order and then the timestamp; a construction carrying a
context and a trace renders all five sections in that order, skipping
the underscore-prefixed param and the context's `indentation` key; and
the key ordering used by `make_block` is a sorted permutation of the
parameter dictionary. -/
theorem texception_render_sorted (iso : PyVal → String)
    (hiso1 : iso (.pint 1234567890) = "2009-02-13T23:31:30")
    (hiso2 : iso (.pint 77) = "ISO-TS") :
    (texceptionInit peanutsTemplate 0 peanutsKwargs (.pint 1234567890)
        "TB").map (fun e => e.render true true true true iso)
      = some ("WHITE<<You can" ++ squote
          ++ "t have 10 peanuts, there are only 8 left>>\n"
          ++ "    available = 8\n    day = Thursday\n    wanted = 10\n"
          ++ "    MAGENTA<<timestamp = 2009-02-13T23:31:30>>\n") ∧
    (texceptionInit boomTemplate 0 boomKwargs (.pint 77) "TB").map
        (fun e => e.render true true true true iso)
      = some ("WHITE<<boom>>\n    wanted = 1\n"
          ++ "    MAGENTA<<timestamp = ISO-TS>>\n"
          ++ "Context:\n    op = read\n"
          ++ "DARK_GRAY@" ++ obrace ++ "TB" ++ cbrace ++ "@") ∧
    (∀ d, (pySorted d).Pairwise
      fun a b => charListLe a.1.data b.1.data = true) ∧
    (∀ d, (pySorted d).Perm d) := by
  refine ⟨?_, ?_, ?_, fun d => List.perm_insertionSort _ d⟩
  · have h1 : texceptionInit peanutsTemplate 0 peanutsKwargs
        (.pint 1234567890) "TB"
        = some ⟨"You can" ++ squote
            ++ "t have 10 peanuts, there are only 8 left",
            .pnone, none, .pint 1234567890,
            peanutsKwargs ++ [("tip", .pnone)]⟩ := rfl
    rw [h1, Option.map_some']
    unfold PExc.render
    rw [hiso1]
    decide
  · have h2 : texceptionInit boomTemplate 0 boomKwargs (.pint 77) "TB"
        = some ⟨"boom",
            .pdict [("indentation", .pint 2), ("op", .pstr "read")],
            some "TB", .pint 77,
            [("wanted", .pint 1), ("_hidden", .pint 5), ("tip", .pnone)]⟩ :=
      rfl
    rw [h2, Option.map_some']
    unfold PExc.render
    rw [hiso2]
    decide
  · intro d
    haveI : IsTotal (String × PyVal)
        (fun a b => charListLe a.1.data b.1.data = true) :=
      ⟨fun a b => charListLe_total a.1.data b.1.data⟩
    haveI : IsTrans (String × PyVal)
        (fun a b => charListLe a.1.data b.1.data = true) :=
      ⟨fun a b c => charListLe_trans a.1.data b.1.data c.1.data⟩
    exact List.sorted_insertionSort _ d

/-- Witness for C7 with a concrete isoformat function. -/
theorem texception_render_sorted_witness :
    (texceptionInit peanutsTemplate 0 peanutsKwargs (.pint 1234567890)
        "TB").map (fun e => e.render true true true true fun v =>
          match v with
          | .pint n => if n = 77 then "ISO-TS" else "2009-02-13T23:31:30"
          | _ => "")
      = some ("WHITE<<You can" ++ squote
          ++ "t have 10 peanuts, there are only 8 left>>\n"
          ++ "    available = 8\n    day = Thursday\n    wanted = 10\n"
          ++ "    MAGENTA<<timestamp = 2009-02-13T23:31:30>>\n") ∧
    (pySorted peanutsKwargs).Pairwise
      (fun a b => charListLe a.1.data b.1.data = true) ∧
    (pySorted peanutsKwargs).Perm peanutsKwargs := by
  have h := texception_render_sorted
    (fun v =>
      match v with
      | .pint n => if n = 77 then "ISO-TS" else "2009-02-13T23:31:30"
      | _ => "")
    (by decide) (by decide)
  exact ⟨h.1, h.2.2.1 peanutsKwargs, h.2.2.2 peanutsKwargs⟩

/-- A template formats to `none` exactly when it references a key the
kwargs lack. -/
theorem tmplFormat_none_iff :
    ∀ (t : List Tmpl) (kw : List (String × PyVal)),
      tmplFormat t kw = none ↔
        ∃ n, Tmpl.field n ∈ t ∧ lookupStr kw n = none := by
  intro t kw
  induction t with
  | nil => simp [tmplFormat]
  | cons piece rest ih =>
    cases piece with
    | lit s =>
      simp only [tmplFormat, Option.map_eq_none', ih, List.mem_cons]
      constructor
      · rintro ⟨n, hn, hl⟩
        exact ⟨n, Or.inr hn, hl⟩
      · rintro ⟨n, hn | hn, hl⟩
        · exact absurd hn (by simp)
        · exact ⟨n, hn, hl⟩
    | field m =>
      cases hm : lookupStr kw m with
      | none =>
        simp only [tmplFormat, hm, true_iff]
        exact ⟨m, List.mem_cons_self _ _, hm⟩
      | some v =>
        simp only [tmplFormat, hm, Option.map_eq_none', ih, List.mem_cons]
        constructor
        · rintro ⟨n, hn, hl⟩
          exact ⟨n, Or.inr hn, hl⟩
        · rintro ⟨n, hn | hn, hl⟩
          · rcases Tmpl.field.inj hn with rfl
            rw [hm] at hl
            exact absurd hl (by simp)
          · exact ⟨n, hn, hl⟩

/-- C9 counterexample: constructed with no positional and no keyword
parameters at all, the peanuts template — which references the keys
`wanted` and `available` — is not formatted and raises no error: the
exception is built with the raw, unformatted template as its message
(the `if args or params` guard of `PException.__init__`, exceptions.py
line 34, skips formatting entirely). -/
theorem texception_empty_params_constructs :
    (texceptionInit peanutsTemplate 0 [] .pnone "").map
        (fun e => e.message)
      = some ("You can" ++ squote ++ "t have " ++ obrace ++ "wanted"
          ++ cbrace ++ " peanuts, there are only " ++ obrace ++ "available"
          ++ cbrace ++ " left") := by
  decide

/-- C9 amended: when at least one positional or keyword parameter is
supplied, the template is formatted immediately at construction (the
stored message equals the formatted template) and construction fails
exactly when the template references a key missing from the parameters;
with no positional and no keyword parameters the guard skips formatting
and the raw template is stored without error. -/
theorem pexception_format_at_construction (message : List Tmpl)
    (argsCount : Nat) (kwargs : List (String × PyVal)) (now : PyVal)
    (fmtExc : String) (classTip : PyVal) :
    (¬ (argsCount = 0 ∧ kwargs = []) →
      ((pexceptionInit message argsCount kwargs now fmtExc classTip).map
          (fun e => e.message) = tmplFormat message kwargs) ∧
      (pexceptionInit message argsCount kwargs now fmtExc classTip = none ↔
        ∃ n, Tmpl.field n ∈ message ∧ lookupStr kwargs n = none)) ∧
    (argsCount = 0 → kwargs = [] →
      (pexceptionInit message argsCount kwargs now fmtExc classTip).map
          (fun e => e.message) = some (tmplRaw message)) := by
  constructor
  · intro h
    have hg : (argsCount == 0 && kwargs.isEmpty) = false := by
      by_cases h1 : argsCount = 0
      · have h2 : kwargs ≠ [] := fun hk => h ⟨h1, hk⟩
        simp [h1, h2]
      · simp [h1]
    cases htf : tmplFormat message kwargs with
    | none =>
      have hnone : pexceptionInit message argsCount kwargs now fmtExc
          classTip = none := by
        unfold pexceptionInit
        rw [hg, htf]
        rfl
      refine ⟨by simp [hnone, htf], ?_⟩
      rw [hnone]
      simp only [true_iff]
      exact (tmplFormat_none_iff message kwargs).mp htf
    | some msg =>
      constructor
      · unfold pexceptionInit
        rw [hg, htf]
        rfl
      · constructor
        · intro hc
          unfold pexceptionInit at hc
          rw [hg, htf] at hc
          exact absurd hc (by simp)
        · intro hex
          have hn := (tmplFormat_none_iff message kwargs).mpr hex
          rw [htf] at hn
          exact absurd hn (by simp)
  · intro h1 h2
    subst h1
    subst h2
    rfl

/-- Witness for the amended C9: the peanuts template with only `wanted`
supplied fails to construct (missing `available`), and with all three
example parameters it stores the formatted message. -/
theorem pexception_format_at_construction_witness :
    pexceptionInit peanutsTemplate 0 [("wanted", PyVal.pint 10)] .pnone ""
        .pnone = none ∧
    (pexceptionInit peanutsTemplate 0 peanutsKwargs .pnone "" .pnone).map
        (fun e => e.message)
      = some ("You can" ++ squote
          ++ "t have 10 peanuts, there are only 8 left") := by
  have ha := pexception_format_at_construction peanutsTemplate 0
    [("wanted", PyVal.pint 10)] .pnone "" .pnone
  have hb := pexception_format_at_construction peanutsTemplate 0
    peanutsKwargs .pnone "" .pnone
  constructor
  · exact (ha.1 (by simp)).2.mpr ⟨"available", by decide, rfl⟩
  · rw [(hb.1 (by simp [peanutsKwargs])).1]
    decide

end Easypy
